import Mathlib

/-!
Shallow embedding of the standings-derivation pipeline of the `realignment`
repository (`src/backend`): the Outcome Deriver (`create_game_scores_dataframe`),
the Standings Aggregator (`calculate_standings_from_scores`), the Persistence
Reconciler (the upsert loops of `scrape_season` / `scrape_all_seasons` /
`scrape_current_season` in `services/scraper_service.py`), and the Standings
Reader (`get_standings` in `services/standings_service.py`).

Modelling conventions:
- pandas DataFrames are lists of records; a DataFrame row becomes a structure.
- `gameday` (a parsed datetime used only as part of a lookup key) is an abstract
  `Nat` token; `pd.to_datetime` is injective on valid dates.
- Python ints are `Int` (scores, seasons) or `Nat` (0/1 flags and their sums,
  which are non-negative by construction).
- Python floats are exact rationals `ℚ`.  The only float arithmetic in the core
  is the win-percentage `(w + t/2) / (w + l + t)`; the spec states the formula
  up to tolerance 1e-9, which the exact rational value satisfies.  In pandas
  the division yields `NaN` exactly when the denominator sum is `0` (the
  numerator is then also `0`), and `fillna(0.0)` maps it to `0.0`; the embedding
  writes this as an explicit zero-denominator test.
- The SQLAlchemy session is a `DBState` record of lists of rows; `query(...)
  .filter(...).first()` followed by field assignment or `add` becomes an
  upsert (update the first row matching the natural key, else append).
- `TeamStanding.last_updated` and `ScrapeLog.scrape_date` are write-only
  timestamps never read anywhere in the repository and explicitly ignored by
  the claims, so the embedded rows omit them.
- The `nflreadpy` fetch collaborator is a parameter: `Except String (List
  RawGame)`, an exception being modelled by its message string.
-/

namespace Realignment

/-- A raw game record as returned by the fetch collaborator
(`nfl.load_schedules(...)`, one row per game). -/
structure RawGame where
  season : Int
  gameday : Nat
  gametime : Option String
  home_team : String
  away_team : String
  home_score : Option Int
  away_score : Option Int
  game_type : String
deriving DecidableEq, Repr

/-- One row of the long-format DataFrame built by
`create_game_scores_dataframe`: one row per team per game. -/
structure GameScoreRow where
  season : Int
  gameday : Nat
  gametime : Option String
  team : String
  opponent : String
  score : Int
  opponent_score : Int
  is_win : Nat
  is_loss : Nat
  is_tie : Nat
deriving DecidableEq, Repr

/-- The home-perspective row for one raw game, when the game is retained
(`game_type == "REG"` and both scores non-null); `none` otherwise.
Mirrors the filter at scraper_service.py lines 90-94 and the
`('home', 'away')` iteration of the `sides` loop (lines 100-116). -/
def homeRow (g : RawGame) : Option GameScoreRow :=
  match g.home_score, g.away_score with
  | some hs, some aws =>
    if g.game_type = "REG" then
      some { season := g.season, gameday := g.gameday, gametime := g.gametime,
             team := g.home_team, opponent := g.away_team,
             score := hs, opponent_score := aws,
             is_win := if hs > aws then 1 else 0,
             is_loss := if hs < aws then 1 else 0,
             is_tie := if hs = aws then 1 else 0 }
    else none
  | _, _ => none

/-- The away-perspective row for one raw game (the `('away', 'home')`
iteration of the `sides` loop): team/opponent and score/opponent_score
swapped. -/
def awayRow (g : RawGame) : Option GameScoreRow :=
  match g.home_score, g.away_score with
  | some hs, some aws =>
    if g.game_type = "REG" then
      some { season := g.season, gameday := g.gameday, gametime := g.gametime,
             team := g.away_team, opponent := g.home_team,
             score := aws, opponent_score := hs,
             is_win := if aws > hs then 1 else 0,
             is_loss := if aws < hs then 1 else 0,
             is_tie := if aws = hs then 1 else 0 }
    else none
  | _, _ => none

/-- Whether a raw game passes the completed-regular-season filter. -/
def retainedGame (g : RawGame) : Bool :=
  g.home_score.isSome && g.away_score.isSome && g.game_type == "REG"

/-- Function `create_game_scores_dataframe` (scraper_service.py lines 75-126):
filter to completed REG games, then concatenate the home-perspective rows
and the away-perspective rows.  An empty result is an empty DataFrame with
the right columns, not an error. -/
def create_game_scores_dataframe (scores : List RawGame) : List GameScoreRow :=
  scores.filterMap homeRow ++ scores.filterMap awayRow

/-- First-occurrence deduplication with an accumulator of already emitted
keys. -/
def dedupKeysAux {α : Type} [DecidableEq α] (seen : List α) : List α → List α
  | [] => []
  | k :: ks => if k ∈ seen then dedupKeysAux seen ks
               else k :: dedupKeysAux (k :: seen) ks

/-- First-occurrence deduplication, used to model the distinct group keys
of a pandas `groupby`. -/
def dedupKeys {α : Type} [DecidableEq α] (l : List α) : List α :=
  dedupKeysAux [] l

/-- One row of the standings DataFrame produced by
`calculate_standings_from_scores`: `groupby(['season','team'])` sums of the
flag columns, plus the `pct` column. -/
structure StandingRow where
  season : Int
  team : String
  is_win : Nat
  is_loss : Nat
  is_tie : Nat
  pct : ℚ
deriving DecidableEq, Repr

/-- The rows of one `groupby(['season','team'])` group. -/
def groupRows (game_scores : List GameScoreRow) (k : Int × String) : List GameScoreRow :=
  game_scores.filter (fun r => decide (r.season = k.1) && decide (r.team = k.2))

/-- The aggregate row for one group key: the flag sums and
`pct = (is_win + is_tie/2) / (is_win + is_loss + is_tie)`, with the
`NaN → 0.0` fill (`fillna(0.0)`) for the zero-denominator group written as
an explicit test. -/
def aggRow (game_scores : List GameScoreRow) (k : Int × String) : StandingRow :=
  let grp := groupRows game_scores k
  let w := (grp.map (fun r => r.is_win)).sum
  let l := (grp.map (fun r => r.is_loss)).sum
  let t := (grp.map (fun r => r.is_tie)).sum
  { season := k.1, team := k.2, is_win := w, is_loss := l, is_tie := t,
    pct := if w + l + t = 0 then 0
           else ((w : ℚ) + (t : ℚ) / 2) / ((w : ℚ) + (l : ℚ) + (t : ℚ)) }

/-- Function `calculate_standings_from_scores` (scraper_service.py lines 129-150):
one aggregate row per distinct `(season, team)` key of the input.
Group-key order (pandas sorts keys; here first occurrence) is not observable
through any claim.  Note: no in-division columns are computed here. -/
def calculate_standings_from_scores (game_scores : List GameScoreRow) : List StandingRow :=
  (dedupKeys (game_scores.map (fun r => (r.season, r.team)))).map (aggRow game_scores)

/-- Stored `team_game_scores` row (models.py `TeamGameScore`); the natural
key is `(season, gameday, team)`.  The surrogate `id` is not modelled. -/
structure TeamGameScore where
  season : Int
  gameday : Nat
  gametime : Option String
  score : Int
  team : String
  opponent : String
  opponent_score : Int
  is_win : Nat
  is_loss : Nat
  is_tie : Nat
deriving DecidableEq, Repr

/-- Stored `team_standings` row (models.py `TeamStanding`); natural key
`(season, team)`.  The write-only `last_updated` timestamp is omitted (see
header).  The `in_division_*` columns have SQL default 0/0.0. -/
structure TeamStanding where
  season : Int
  team : String
  wins : Nat
  losses : Nat
  ties : Nat
  win_pct : ℚ
  in_division_wins : Nat
  in_division_losses : Nat
  in_division_ties : Nat
  in_division_win_pct : ℚ
deriving DecidableEq, Repr

/-- Stored `scrape_logs` row (models.py `ScrapeLog`); append-only audit
record.  The write-only `scrape_date` timestamp is omitted. -/
structure ScrapeLog where
  seasons_scraped : String
  success : Bool
  error_message : Option String
  records_updated : Nat
deriving DecidableEq, Repr

/-- The database session state: the three mutated tables. -/
structure DBState where
  game_scores : List TeamGameScore
  standings : List TeamStanding
  scrape_logs : List ScrapeLog
deriving DecidableEq, Repr

/-- Replace the first element satisfying `p` by its image under `f`
(models assigning fields on the row returned by `.filter(...).first()`). -/
def updateFirst {α : Type} (p : α → Bool) (f : α → α) : List α → List α
  | [] => []
  | x :: xs => if p x then f x :: xs else x :: updateFirst p f xs

/-- The predicate "this stored row has the derived row's natural key" (the
`.filter(...)` conditions of the lookup queries). -/
def keyPred {α ρ κ : Type} [DecidableEq κ] (key : α → κ) (rkey : ρ → κ) (r : ρ) : α → Bool :=
  fun x => decide (key x = rkey r)

/-- Generic upsert, the pattern repeated by the reconciler: if a stored row
matches the derived row's natural key, overwrite it in place with `g`;
otherwise append a freshly constructed row `mk r`. -/
def upsertRow {α ρ κ : Type} [DecidableEq κ] (key : α → κ) (rkey : ρ → κ)
    (mk : ρ → α) (g : ρ → α → α) (r : ρ) (s : List α) : List α :=
  if s.any (keyPred key rkey r) then
    updateFirst (keyPred key rkey r) (g r) s
  else s ++ [mk r]

/-- Fold a batch of derived rows through the upsert (the `for _, row in
df.iterrows()` loops). -/
def upsertBatch {α ρ κ : Type} [DecidableEq κ] (key : α → κ) (rkey : ρ → κ)
    (mk : ρ → α) (g : ρ → α → α) (rows : List ρ) (s : List α) : List α :=
  rows.foldl (fun s r => upsertRow key rkey mk g r s) s

/-- Natural key of a stored game-score row. -/
def gsKey (x : TeamGameScore) : Int × Nat × String := (x.season, x.gameday, x.team)

/-- Natural key of a derived game-score DataFrame row. -/
def gsRowKey (r : GameScoreRow) : Int × Nat × String := (r.season, r.gameday, r.team)

/-- New stored game-score row built from a derived row (the
`TeamGameScore(...)` constructor call in `scrape_season`). -/
def mkTeamGameScore (r : GameScoreRow) : TeamGameScore :=
  { season := r.season, gameday := r.gameday, gametime := r.gametime,
    score := r.score, team := r.team, opponent := r.opponent,
    opponent_score := r.opponent_score,
    is_win := r.is_win, is_loss := r.is_loss, is_tie := r.is_tie }

/-- In-place overwrite of an existing stored game-score row (the `existing.x
= ...` assignments in `scrape_season`): every mutable field is set from the
derived row; the key fields already agree. -/
def overwriteTeamGameScore (r : GameScoreRow) (x : TeamGameScore) : TeamGameScore :=
  { x with gametime := r.gametime, score := r.score, opponent := r.opponent,
           opponent_score := r.opponent_score,
           is_win := r.is_win, is_loss := r.is_loss, is_tie := r.is_tie }

/-- Natural key of a stored standing row. -/
def stKey (x : TeamStanding) : Int × String := (x.season, x.team)

/-- Natural key of a standings DataFrame row. -/
def stRowKey (r : StandingRow) : Int × String := (r.season, r.team)

/-- New stored standing built from an aggregate row (the `TeamStanding(...)`
constructor call): the in-division columns are left at their defaults (0). -/
def mkTeamStanding (r : StandingRow) : TeamStanding :=
  { season := r.season, team := r.team,
    wins := r.is_win, losses := r.is_loss, ties := r.is_tie, win_pct := r.pct,
    in_division_wins := 0, in_division_losses := 0, in_division_ties := 0,
    in_division_win_pct := 0 }

/-- In-place overwrite of an existing stored standing: wins/losses/ties and
win_pct are set from the aggregate row; the in-division columns are never
assigned anywhere in the repository and keep their stored values.  (The
`pd.notna` guards are always true for sums of int columns.) -/
def overwriteTeamStanding (r : StandingRow) (x : TeamStanding) : TeamStanding :=
  { x with wins := r.is_win, losses := r.is_loss, ties := r.is_tie,
           win_pct := r.pct }

/-- The game-score reconcile loop of `scrape_season` /
`scrape_all_seasons`. -/
def saveGameScores (rows : List GameScoreRow) (s : List TeamGameScore) : List TeamGameScore :=
  upsertBatch gsKey gsRowKey mkTeamGameScore overwriteTeamGameScore rows s

/-- The standings reconcile loop of `scrape_season` / `scrape_all_seasons`. -/
def saveStandings (rows : List StandingRow) (s : List TeamStanding) : List TeamStanding :=
  upsertBatch stKey stRowKey mkTeamStanding overwriteTeamStanding rows s

/-- Function `scrape_season` (scraper_service.py lines 153-250), with the already
fetched raw games as input (the fetch collaborator is exercised separately
by the wrapper entry points).  Returns the post-commit state and
`records_updated`, which counts the standings rows written.  On zero
retained games it returns 0 before touching the database.  No ScrapeLog row
is written here. -/
def scrape_season (scores : List RawGame) (db : DBState) : DBState × Nat :=
  let game_scores_df := create_game_scores_dataframe scores
  if game_scores_df.isEmpty then (db, 0)
  else
    let gs := saveGameScores game_scores_df db.game_scores
    let standings_df := calculate_standings_from_scores game_scores_df
    let st := saveStandings standings_df db.standings
    ({ db with game_scores := gs, standings := st }, standings_df.length)

/-- Result dictionary of the wrapper scrape entry points. -/
structure RefreshResult where
  success : Bool
  records_updated : Nat
  error : Option String
deriving DecidableEq, Repr

/-- Ascending insertion of an `Int` into a sorted list (models `sorted`). -/
def insertAscInt (x : Int) : List Int → List Int
  | [] => [x]
  | y :: l => if x ≤ y then x :: y :: l else y :: insertAscInt x l

/-- Ascending sort of the distinct seasons (`sorted(df['season'].unique())`). -/
def sortedUniqueSeasons (game_scores : List GameScoreRow) : List Int :=
  (dedupKeys (game_scores.map (fun r => r.season))).foldr insertAscInt []

/-- Python `','.join(map(str, seasons))`. -/
def seasonsJoined (game_scores : List GameScoreRow) : String :=
  String.intercalate "," ((sortedUniqueSeasons game_scores).map toString)

/-- Python `err[:1000]`: the first 1000 characters of the message. -/
def truncateError (s : String) : String := String.mk (s.data.take 1000)

/-- Function `scrape_all_seasons` (scraper_service.py lines 253-382).  The fetch
collaborator's outcome is the `fetched` parameter.  On fetch failure the
incomplete batch is rolled back (trivial here: the fetch comes first),
a failed ScrapeLog row is appended and committed, and a failure dictionary
is returned.  On an empty derived DataFrame a failure dictionary is
returned with no log row.  Otherwise both reconcile loops run, a success
log row is appended, and a success dictionary is returned. -/
def scrape_all_seasons (fetched : Except String (List RawGame)) (db : DBState) :
    DBState × RefreshResult :=
  match fetched with
  | .error e =>
    let log : ScrapeLog := { seasons_scraped := "", success := false,
                             error_message := some (truncateError e), records_updated := 0 }
    ({ db with scrape_logs := db.scrape_logs ++ [log] },
     { success := false, records_updated := 0, error := some e })
  | .ok scores =>
    let game_scores_df := create_game_scores_dataframe scores
    if game_scores_df.isEmpty then
      (db, { success := false, records_updated := 0, error := some "No game scores data found" })
    else
      let gs := saveGameScores game_scores_df db.game_scores
      let standings_df := calculate_standings_from_scores game_scores_df
      let st := saveStandings standings_df db.standings
      let log : ScrapeLog := { seasons_scraped := seasonsJoined game_scores_df, success := true,
                               error_message := none, records_updated := standings_df.length }
      ({ game_scores := gs, standings := st, scrape_logs := db.scrape_logs ++ [log] },
       { success := true, records_updated := standings_df.length, error := none })

/-- Function `scrape_current_season` (scraper_service.py lines 385-438).
`current_year` is `datetime.now().year`, the calendar year at run time —
recorded in the log whether or not it equals the season of the fetched
data.  On fetch failure (raised out of `scrape_season` after its rollback)
a failed log row is appended and a failure dictionary returned. -/
def scrape_current_season (fetched : Except String (List RawGame)) (current_year : Int)
    (db : DBState) : DBState × RefreshResult :=
  match fetched with
  | .error e =>
    let log : ScrapeLog := { seasons_scraped := "", success := false,
                             error_message := some (truncateError e), records_updated := 0 }
    ({ db with scrape_logs := db.scrape_logs ++ [log] },
     { success := false, records_updated := 0, error := some e })
  | .ok scores =>
    let res := scrape_season scores db
    let log : ScrapeLog := { seasons_scraped := toString current_year, success := true,
                             error_message := none, records_updated := res.2 }
    ({ res.1 with scrape_logs := res.1.scrape_logs ++ [log] },
     { success := true, records_updated := res.2, error := none })

/-- One row of the `team_realignment` table (models.py `TeamRealignment`). -/
structure TeamRealignment where
  team : String
  conference : String
  division : String
  name : String
deriving DecidableEq, Repr

/-- Constant `REALIGNMENT_DATA` (scraper_service.py lines 11-44): the static custom
conference/division mapping seeded into the registry. -/
def REALIGNMENT_DATA : List TeamRealignment :=
  [ ⟨"DAL", "People", "People with Jobs", "Cowboys"⟩,
    ⟨"KC", "People", "People", "Chiefs"⟩,
    ⟨"TB", "People", "Violent People", "Buccaneers"⟩,
    ⟨"CIN", "Animals", "Cats", "Bengals"⟩,
    ⟨"MIA", "Animals", "Animals Who Eat Fish", "Dolphins"⟩,
    ⟨"CAR", "Animals", "Cats", "Panthers"⟩,
    ⟨"LV", "People", "Violent People", "Raiders"⟩,
    ⟨"ARI", "Animals", "Birds Who Can't Swim", "Cardinals"⟩,
    ⟨"PIT", "People", "People with Jobs", "Steelers"⟩,
    ⟨"NYG", "People", "Fictional People", "Giants"⟩,
    ⟨"TEN", "People", "Fictional People", "Titans"⟩,
    ⟨"SF", "People", "People with Jobs", "49ers"⟩,
    ⟨"DET", "Animals", "Cats", "Lions"⟩,
    ⟨"HOU", "People", "People", "Texans"⟩,
    ⟨"BAL", "Animals", "Birds Who Can't Swim", "Ravens"⟩,
    ⟨"MIN", "People", "Violent People", "Vikings"⟩,
    ⟨"WAS", "People", "People with Jobs", "Commanders"⟩,
    ⟨"CLE", "People", "People", "Browns"⟩,
    ⟨"JAX", "Animals", "Cats", "Jaguars"⟩,
    ⟨"CHI", "Animals", "Animals Who Eat Fish", "Bears"⟩,
    ⟨"NE", "People", "People", "Patriots"⟩,
    ⟨"BUF", "Animals", "Animals Who Eat Grass", "Bills"⟩,
    ⟨"SEA", "Animals", "Animals Who Eat Fish", "Seahawks"⟩,
    ⟨"LA", "Animals", "Animals Who Eat Grass", "Rams"⟩,
    ⟨"DEN", "Animals", "Animals Who Eat Grass", "Broncos"⟩,
    ⟨"PHI", "Animals", "Animals Who Eat Fish", "Eagles"⟩,
    ⟨"ATL", "Animals", "Birds Who Can't Swim", "Falcons"⟩,
    ⟨"LAC", "People", "Violent People", "Chargers"⟩,
    ⟨"GB", "People", "People with Jobs", "Packers"⟩,
    ⟨"NYJ", "People", "Fictional People", "Jets"⟩,
    ⟨"IND", "Animals", "Animals Who Eat Grass", "Colts"⟩,
    ⟨"NO", "People", "Fictional People", "Saints"⟩ ]

/-- Division of a team code under the seeded registry (team codes are unique
in `REALIGNMENT_DATA`, matching the table's unique constraint). -/
def divisionOf (team : String) : Option String :=
  (REALIGNMENT_DATA.find? (fun r => r.team == team)).map (fun r => r.division)

/-- Lookup in the `realignment_map` dict of `get_standings`
(standings_service.py lines 86-93).  A Python dict comprehension keeps the
last row per key, hence the reversed search; with the registry's unique
team codes this coincides with the first match. -/
def realignmentLookup (realignments : List TeamRealignment) (team : String) :
    Option TeamRealignment :=
  realignments.reverse.find? (fun r => r.team == team)

/-- One entry of a division list in the nested mapping returned by
`get_standings` (standings_service.py lines 114-126). -/
structure StandingEntry where
  team : String
  name : String
  wins : Nat
  losses : Nat
  ties : Nat
  win_pct : ℚ
  in_division_wins : Nat
  in_division_losses : Nat
  in_division_ties : Nat
  in_division_win_pct : ℚ
  season : Int
deriving DecidableEq, Repr

/-- The composite sort key `(win_pct, in_division_win_pct)` of the division
sort (standings_service.py line 132). -/
def sortKey (e : StandingEntry) : ℚ × ℚ := (e.win_pct, e.in_division_win_pct)

/-- Strict lexicographic order on composite sort keys. -/
def lexLt (a b : ℚ × ℚ) : Prop := a.1 < b.1 ∨ (a.1 = b.1 ∧ a.2 < b.2)

instance (a b : ℚ × ℚ) : Decidable (lexLt a b) :=
  inferInstanceAs (Decidable (_ ∨ _))

/-- Stable descending insertion: the inserted entry (earlier in the input)
passes over an existing entry only when its key is strictly smaller, so it
lands before every entry with an equal key. -/
def insertEntryDesc (x : StandingEntry) : List StandingEntry → List StandingEntry
  | [] => [x]
  | y :: l => if lexLt (sortKey x) (sortKey y) then y :: insertEntryDesc x l
              else x :: y :: l

/-- The division-list sort: Python's `list.sort(key=..., reverse=True)` is a
stable descending sort by the composite key, which stable descending
insertion sort realises (a stable sort's output is determined by the
comparator, independent of algorithm). -/
def sortEntriesDesc : List StandingEntry → List StandingEntry
  | [] => []
  | x :: l => insertEntryDesc x (sortEntriesDesc l)

/-- The entry contributed to the `result[conference][division]` list by one
stored standing row in `get_standings`: skipped if the team is absent from
the realignment map, included if its realignment names that conference and
division. -/
def entryFor (realignments : List TeamRealignment) (conference division : String)
    (s : TeamStanding) : Option StandingEntry :=
  match realignmentLookup realignments s.team with
  | none => none
  | some r =>
    if r.conference = conference ∧ r.division = division then
      some { team := s.team, name := r.name,
             wins := s.wins, losses := s.losses, ties := s.ties, win_pct := s.win_pct,
             in_division_wins := s.in_division_wins,
             in_division_losses := s.in_division_losses,
             in_division_ties := s.in_division_ties,
             in_division_win_pct := s.in_division_win_pct,
             season := s.season }
    else none

/-- The division list as built by the grouping loop of `get_standings`
(before sorting): the standings rows of that conference/division in stored
order, realignment fields joined in. -/
def groupedEntries (realignments : List TeamRealignment) (standings : List TeamStanding)
    (conference division : String) : List StandingEntry :=
  standings.filterMap (entryFor realignments conference division)

/-- The `result[conference][division]` list returned by `get_standings`
(standings_service.py lines 95-136): the grouped entries, sorted descending
by the composite key. -/
def get_standings_division (realignments : List TeamRealignment)
    (standings : List TeamStanding) (conference division : String) : List StandingEntry :=
  sortEntriesDesc (groupedEntries realignments standings conference division)

/-! Lemmas about the Outcome Deriver -/

theorem homeRow_isSome (g : RawGame) : (homeRow g).isSome = retainedGame g := by
  unfold homeRow retainedGame
  cases g.home_score <;> cases g.away_score <;> simp
  split <;> simp_all

theorem awayRow_isSome (g : RawGame) : (awayRow g).isSome = retainedGame g := by
  unfold awayRow retainedGame
  cases g.home_score <;> cases g.away_score <;> simp
  split <;> simp_all

theorem homeRow_some_elim {g : RawGame} {row : GameScoreRow} (h : homeRow g = some row) :
    ∃ hs aws, g.home_score = some hs ∧ g.away_score = some aws ∧ g.game_type = "REG" ∧
      row = { season := g.season, gameday := g.gameday, gametime := g.gametime,
              team := g.home_team, opponent := g.away_team,
              score := hs, opponent_score := aws,
              is_win := if hs > aws then 1 else 0,
              is_loss := if hs < aws then 1 else 0,
              is_tie := if hs = aws then 1 else 0 } := by
  unfold homeRow at h
  split at h
  case h_1 hs aws heq1 heq2 =>
    split at h
    case isTrue hty => exact ⟨hs, aws, heq1, heq2, hty, (Option.some.inj h).symm⟩
    case isFalse => cases h
  case h_2 => cases h

theorem awayRow_some_elim {g : RawGame} {row : GameScoreRow} (h : awayRow g = some row) :
    ∃ hs aws, g.home_score = some hs ∧ g.away_score = some aws ∧ g.game_type = "REG" ∧
      row = { season := g.season, gameday := g.gameday, gametime := g.gametime,
              team := g.away_team, opponent := g.home_team,
              score := aws, opponent_score := hs,
              is_win := if aws > hs then 1 else 0,
              is_loss := if aws < hs then 1 else 0,
              is_tie := if aws = hs then 1 else 0 } := by
  unfold awayRow at h
  split at h
  case h_1 hs aws heq1 heq2 =>
    split at h
    case isTrue hty => exact ⟨hs, aws, heq1, heq2, hty, (Option.some.inj h).symm⟩
    case isFalse => cases h
  case h_2 => cases h

theorem mem_create_iff {games : List RawGame} {row : GameScoreRow} :
    row ∈ create_game_scores_dataframe games ↔
      (∃ g ∈ games, homeRow g = some row) ∨ (∃ g ∈ games, awayRow g = some row) := by
  simp [create_game_scores_dataframe, List.mem_append, List.mem_filterMap]

/-- Win/loss/tie flags of any derived row are determined by the score
comparison, expressed on the row's own fields. -/
theorem row_flags {games : List RawGame} {row : GameScoreRow}
    (h : row ∈ create_game_scores_dataframe games) :
    (row.is_win = if row.opponent_score < row.score then 1 else 0) ∧
    (row.is_loss = if row.score < row.opponent_score then 1 else 0) ∧
    (row.is_tie = if row.score = row.opponent_score then 1 else 0) := by
  rcases mem_create_iff.mp h with ⟨g, _, hg⟩ | ⟨g, _, hg⟩
  · obtain ⟨hs, aws, _, _, _, hrow⟩ := homeRow_some_elim hg
    subst hrow; exact ⟨rfl, rfl, rfl⟩
  · obtain ⟨hs, aws, _, _, _, hrow⟩ := awayRow_some_elim hg
    subst hrow; exact ⟨rfl, rfl, rfl⟩

/-- Every derived row has exactly one flag set: the three 0/1 flags sum
to 1. -/
theorem flag_sum_one {games : List RawGame} {row : GameScoreRow}
    (h : row ∈ create_game_scores_dataframe games) :
    row.is_win + row.is_loss + row.is_tie = 1 := by
  obtain ⟨hw, hl, ht⟩ := row_flags h
  rcases lt_trichotomy row.score row.opponent_score with hc | hc | hc
  · rw [hw, hl, ht, if_neg (by omega), if_pos hc, if_neg (by omega)]
  · rw [hw, hl, ht, if_neg (by omega), if_neg (by omega), if_pos hc]
  · rw [hw, hl, ht, if_pos hc, if_neg (by omega), if_neg (by omega)]

theorem length_filterMap_homeRow (games : List RawGame) :
    (games.filterMap homeRow).length = (games.filter retainedGame).length := by
  induction games with
  | nil => rfl
  | cons g gs ih =>
    have hg := homeRow_isSome g
    cases hr : homeRow g with
    | none => rw [hr] at hg; simp [hr, List.filter, ← hg, ih]
    | some r => rw [hr] at hg; simp [hr, List.filter, ← hg, ih]

theorem length_filterMap_awayRow (games : List RawGame) :
    (games.filterMap awayRow).length = (games.filter retainedGame).length := by
  induction games with
  | nil => rfl
  | cons g gs ih =>
    have hg := awayRow_isSome g
    cases hr : awayRow g with
    | none => rw [hr] at hg; simp [hr, List.filter, ← hg, ih]
    | some r => rw [hr] at hg; simp [hr, List.filter, ← hg, ih]

/-- C6: the Outcome Deriver emits, for each input game with
`game_type == "REG"` and both scores non-null, exactly two rows — the home
perspective and the away perspective with team/opponent and
score/opponent_score swapped — and emits no rows for any other input game;
when no games are retained the output is the empty sequence, not an
error. -/
theorem outcome_deriver_two_rows_per_retained_game (games : List RawGame) :
    ((games.filter retainedGame).length = 0 → create_game_scores_dataframe games = []) ∧
    (create_game_scores_dataframe games).length = 2 * (games.filter retainedGame).length ∧
    (∀ g ∈ games, retainedGame g = true →
      ∃ hr ar, homeRow g = some hr ∧ awayRow g = some ar ∧
        hr ∈ create_game_scores_dataframe games ∧ ar ∈ create_game_scores_dataframe games ∧
        hr.team = g.home_team ∧ hr.opponent = g.away_team ∧
        ar.team = hr.opponent ∧ ar.opponent = hr.team ∧
        ar.score = hr.opponent_score ∧ ar.opponent_score = hr.score) ∧
    (∀ row ∈ create_game_scores_dataframe games,
      ∃ g ∈ games, retainedGame g = true ∧ (homeRow g = some row ∨ awayRow g = some row)) ∧
    (∀ g ∈ games, retainedGame g = false → homeRow g = none ∧ awayRow g = none) := by
  refine ⟨?_, ?_, ?_, ?_, ?_⟩
  · intro h
    have h2 : (create_game_scores_dataframe games).length = 0 := by
      simp [create_game_scores_dataframe, length_filterMap_homeRow,
            length_filterMap_awayRow, h]
    exact List.length_eq_zero.mp h2
  · simp [create_game_scores_dataframe, length_filterMap_homeRow,
          length_filterMap_awayRow]; ring
  · intro g hm hret
    have hh := homeRow_isSome g
    have ha := awayRow_isSome g
    rw [hret] at hh ha
    obtain ⟨hr, hhr⟩ := Option.isSome_iff_exists.mp hh
    obtain ⟨ar, har⟩ := Option.isSome_iff_exists.mp ha
    obtain ⟨hs, aws, hs1, hs2, _, hrow⟩ := homeRow_some_elim hhr
    obtain ⟨hs', aws', hs1', hs2', _, arow⟩ := awayRow_some_elim har
    rw [hs1] at hs1'; rw [hs2] at hs2'
    obtain rfl : hs = hs' := by injection hs1'
    obtain rfl : aws = aws' := by injection hs2'
    refine ⟨hr, ar, hhr, har, ?_, ?_, ?_⟩
    · exact mem_create_iff.mpr (Or.inl ⟨g, hm, hhr⟩)
    · exact mem_create_iff.mpr (Or.inr ⟨g, hm, har⟩)
    · subst hrow; subst arow; exact ⟨rfl, rfl, rfl, rfl, rfl, rfl⟩
  · intro row hrow
    rcases mem_create_iff.mp hrow with ⟨g, hm, hg⟩ | ⟨g, hm, hg⟩
    · have := homeRow_isSome g
      rw [hg] at this
      exact ⟨g, hm, this.symm, Or.inl hg⟩
    · have := awayRow_isSome g
      rw [hg] at this
      exact ⟨g, hm, this.symm, Or.inr hg⟩
  · intro g _ hret
    have hh := homeRow_isSome g
    have ha := awayRow_isSome g
    rw [hret] at hh ha
    exact ⟨Option.not_isSome_iff_eq_none.mp (by simp [hh]),
           Option.not_isSome_iff_eq_none.mp (by simp [ha])⟩

/-- C7: in every derived row, `is_win` holds iff `score > opponent_score`,
`is_loss` iff `score < opponent_score`, `is_tie` iff the scores are equal,
and exactly one of the three 0/1 flags is set; the two rows of one game are
mirror-consistent (home win iff away loss, tie iff both tie). -/
theorem flags_exclusive_and_mirror (games : List RawGame) :
    (∀ row ∈ create_game_scores_dataframe games,
      (row.is_win = 1 ↔ row.opponent_score < row.score) ∧
      (row.is_loss = 1 ↔ row.score < row.opponent_score) ∧
      (row.is_tie = 1 ↔ row.score = row.opponent_score) ∧
      row.is_win + row.is_loss + row.is_tie = 1) ∧
    (∀ g : RawGame, ∀ hr ar : GameScoreRow, homeRow g = some hr → awayRow g = some ar →
      hr.is_win = ar.is_loss ∧ hr.is_loss = ar.is_win ∧ hr.is_tie = ar.is_tie) := by
  constructor
  · intro row hm
    obtain ⟨hw, hl, ht⟩ := row_flags hm
    refine ⟨?_, ?_, ?_, flag_sum_one hm⟩
    · rw [hw]; split <;> simp_all
    · rw [hl]; split <;> simp_all
    · rw [ht]; split <;> simp_all
  · intro g hr ar hhr har
    obtain ⟨hs, aws, hs1, hs2, _, hrow⟩ := homeRow_some_elim hhr
    obtain ⟨hs', aws', hs1', hs2', _, arow⟩ := awayRow_some_elim har
    rw [hs1] at hs1'; rw [hs2] at hs2'
    obtain rfl : hs = hs' := by injection hs1'
    obtain rfl : aws = aws' := by injection hs2'
    subst hrow; subst arow
    refine ⟨rfl, rfl, ?_⟩
    simp only []
    by_cases h : hs = aws
    · rw [if_pos h, if_pos h.symm]
    · rw [if_neg h, if_neg (fun hh => h hh.symm)]

/-! Lemmas about the Standings Aggregator -/

theorem mem_dedupKeysAux {α : Type} [DecidableEq α] {m : α} :
    ∀ (l seen : List α), m ∈ dedupKeysAux seen l ↔ m ∈ l ∧ m ∉ seen := by
  intro l
  induction l with
  | nil => intro seen; simp [dedupKeysAux]
  | cons k ks ih =>
    intro seen
    unfold dedupKeysAux
    by_cases hk : k ∈ seen
    · rw [if_pos hk, ih]
      constructor
      · rintro ⟨h1, h2⟩; exact ⟨List.mem_cons_of_mem _ h1, h2⟩
      · rintro ⟨h1, h2⟩
        rcases List.mem_cons.mp h1 with rfl | h1
        · exact absurd hk h2
        · exact ⟨h1, h2⟩
    · rw [if_neg hk]
      simp only [List.mem_cons, ih]
      constructor
      · rintro (rfl | ⟨h1, h2⟩)
        · exact ⟨Or.inl rfl, hk⟩
        · exact ⟨Or.inr h1, fun hs => h2 (Or.inr hs)⟩
      · rintro ⟨rfl | h1, h2⟩
        · exact Or.inl rfl
        · by_cases hmk : m = k
          · exact Or.inl hmk
          · exact Or.inr ⟨h1, fun hs => hs.elim hmk h2⟩

theorem mem_dedupKeys {α : Type} [DecidableEq α] {m : α} {l : List α} :
    m ∈ dedupKeys l ↔ m ∈ l := by
  rw [dedupKeys, mem_dedupKeysAux]
  simp

theorem nodup_dedupKeysAux {α : Type} [DecidableEq α] :
    ∀ (l seen : List α), (dedupKeysAux seen l).Nodup := by
  intro l
  induction l with
  | nil => intro seen; simp [dedupKeysAux]
  | cons k ks ih =>
    intro seen
    unfold dedupKeysAux
    by_cases hk : k ∈ seen
    · rw [if_pos hk]; exact ih seen
    · rw [if_neg hk]
      refine List.Nodup.cons ?_ (ih (k :: seen))
      intro hm
      exact ((mem_dedupKeysAux ks (k :: seen)).mp hm).2 (List.mem_cons_self _ _)

theorem nodup_dedupKeys {α : Type} [DecidableEq α] (l : List α) :
    (dedupKeys l).Nodup := nodup_dedupKeysAux l []

theorem mem_calculate_elim {game_scores : List GameScoreRow} {st : StandingRow}
    (h : st ∈ calculate_standings_from_scores game_scores) :
    ∃ k, k ∈ dedupKeys (game_scores.map (fun r => (r.season, r.team))) ∧
      st = aggRow game_scores k := by
  obtain ⟨k, hk, hst⟩ := List.mem_map.mp h
  exact ⟨k, hk, hst.symm⟩

/-- The standings DataFrame has pairwise distinct `(season, team)` keys. -/
theorem calculate_standings_keys_nodup (game_scores : List GameScoreRow) :
    (calculate_standings_from_scores game_scores).Pairwise
      (fun a b => stRowKey a ≠ stRowKey b) := by
  unfold calculate_standings_from_scores
  rw [List.pairwise_map]
  have hnd := nodup_dedupKeys (game_scores.map (fun r => (r.season, r.team)))
  refine hnd.imp ?_
  intro a b hab
  simpa [stRowKey, aggRow] using hab

/-- C8: in every aggregate row, `pct` is the win-percentage formula
`(wins + ties/2) / (wins + losses + ties)` of that row's own totals when
the denominator is nonzero, and `0` when the denominator is zero.  The spec
allows floating-point tolerance 1e-9; the embedding computes the exact
rational value, which trivially meets it. -/
theorem win_pct_formula (game_scores : List GameScoreRow) :
    ∀ st ∈ calculate_standings_from_scores game_scores,
      (st.is_win + st.is_loss + st.is_tie = 0 → st.pct = 0) ∧
      (st.is_win + st.is_loss + st.is_tie ≠ 0 →
        st.pct = ((st.is_win : ℚ) + (st.is_tie : ℚ) / 2) /
                 ((st.is_win : ℚ) + (st.is_loss : ℚ) + (st.is_tie : ℚ))) := by
  intro st hst
  obtain ⟨k, _, rfl⟩ := mem_calculate_elim hst
  unfold aggRow
  constructor
  · intro h0
    simp only at h0 ⊢
    rw [if_pos h0]
  · intro h0
    simp only at h0 ⊢
    rw [if_neg h0]

/-- Sum of the three flag columns over a group whose rows each carry exactly
one flag equals the number of rows in the group. -/
theorem flag_sums_eq_length {l : List GameScoreRow}
    (h : ∀ r ∈ l, r.is_win + r.is_loss + r.is_tie = 1) :
    (l.map (fun r => r.is_win)).sum + (l.map (fun r => r.is_loss)).sum +
      (l.map (fun r => r.is_tie)).sum = l.length := by
  induction l with
  | nil => rfl
  | cons r rs ih =>
    have hr := h r (List.mem_cons_self _ _)
    have hrs := ih (fun x hx => h x (List.mem_cons_of_mem _ hx))
    simp only [List.map_cons, List.sum_cons, List.length_cons]
    omega

/-- C10: every aggregate produced from a (necessarily non-empty) group of
derived rows has `wins + losses + ties ≥ 1`, so the zero-denominator
fallback of the `pct` computation is unreachable and `pct` is always the
division formula. -/
theorem denominator_positive (games : List RawGame) :
    ∀ st ∈ calculate_standings_from_scores (create_game_scores_dataframe games),
      1 ≤ st.is_win + st.is_loss + st.is_tie ∧
      st.pct = ((st.is_win : ℚ) + (st.is_tie : ℚ) / 2) /
               ((st.is_win : ℚ) + (st.is_loss : ℚ) + (st.is_tie : ℚ)) := by
  intro st hst
  obtain ⟨k, hk, rfl⟩ := mem_calculate_elim hst
  have hkmem : k ∈ (create_game_scores_dataframe games).map (fun r => (r.season, r.team)) :=
    mem_dedupKeys.mp hk
  obtain ⟨r, hr, hkey⟩ := List.mem_map.mp hkmem
  have hrg : r ∈ groupRows (create_game_scores_dataframe games) k := by
    unfold groupRows
    refine List.mem_filter.mpr ⟨hr, ?_⟩
    rw [← hkey]
    simp
  have hne : 1 ≤ (groupRows (create_game_scores_dataframe games) k).length :=
    List.length_pos.mpr (List.ne_nil_of_mem hrg)
  have hflags : ∀ x ∈ groupRows (create_game_scores_dataframe games) k,
      x.is_win + x.is_loss + x.is_tie = 1 := by
    intro x hx
    exact flag_sum_one (List.mem_of_mem_filter hx)
  have hsum := flag_sums_eq_length hflags
  have h1 : 1 ≤ (aggRow (create_game_scores_dataframe games) k).is_win +
      (aggRow (create_game_scores_dataframe games) k).is_loss +
      (aggRow (create_game_scores_dataframe games) k).is_tie := by
    unfold aggRow
    simp only
    omega
  refine ⟨h1, ?_⟩
  unfold aggRow at h1 ⊢
  simp only at h1 ⊢
  rw [if_neg (by omega)]

/-! Idempotence of upsert-by-natural-key batches

The reconciler's contract: a second run over the same derived rows matches
every row by key and overwrites it with identical values.  The lemmas are
generic in the key extractors `key`/`rkey`, constructor `mk` and in-place
overwrite `g`, under the four facts that hold for both tables: `g` and `mk`
preserve keys, `g` is idempotent, and `g` fixes a freshly constructed row. -/

section UpsertLemmas

variable {α ρ κ : Type} [DecidableEq κ]
variable {key : α → κ} {rkey : ρ → κ} {mk : ρ → α} {g : ρ → α → α}

theorem updateFirst_of_not_any {p : α → Bool} {f : α → α} :
    ∀ {s : List α}, s.any p = false → updateFirst p f s = s := by
  intro s
  induction s with
  | nil => intro _; rfl
  | cons x xs ih =>
    intro h
    rw [List.any_cons] at h
    have hx : p x = false := by
      cases hpx : p x
      · rfl
      · rw [hpx] at h; simp at h
    have hxs : xs.any p = false := by
      cases hps : xs.any p
      · rfl
      · rw [hps] at h; simp at h
    unfold updateFirst
    rw [hx]
    simp [ih hxs]

theorem updateFirst_append_notlast {p : α → Bool} {f : α → α} {a : α} (ha : p a = false) :
    ∀ (s : List α), updateFirst p f (s ++ [a]) = updateFirst p f s ++ [a] := by
  intro s
  induction s with
  | nil => simp [updateFirst, ha]
  | cons x xs ih =>
    simp only [List.cons_append, updateFirst]
    cases hx : p x <;> simp [ih]

theorem updateFirst_append_of_not_any {p : α → Bool} {f : α → α} :
    ∀ {s : List α}, s.any p = false → ∀ (t : List α),
      updateFirst p f (s ++ t) = s ++ updateFirst p f t := by
  intro s
  induction s with
  | nil => intro _ t; rfl
  | cons x xs ih =>
    intro h t
    rw [List.any_cons] at h
    have hx : p x = false := by
      cases hpx : p x
      · rfl
      · rw [hpx] at h; simp at h
    have hxs : xs.any p = false := by
      cases hps : xs.any p
      · rfl
      · rw [hps] at h; simp at h
    simp only [List.cons_append, updateFirst, hx, Bool.false_eq_true, if_false]
    rw [List.append_eq, ih hxs]

theorem any_updateFirst {p q : α → Bool} {f : α → α} (hpres : ∀ x, q (f x) = q x) :
    ∀ s : List α, (updateFirst p f s).any q = s.any q := by
  intro s
  induction s with
  | nil => rfl
  | cons x xs ih =>
    unfold updateFirst
    cases hx : p x
    · simp [ih]
    · simp [hpres]

theorem updateFirst_comm {p q : α → Bool} {f h : α → α}
    (hdisj : ∀ x, ¬(p x = true ∧ q x = true))
    (hfq : ∀ x, q (f x) = q x) (hhp : ∀ x, p (h x) = p x) :
    ∀ s : List α, updateFirst p f (updateFirst q h s) = updateFirst q h (updateFirst p f s) := by
  intro s
  induction s with
  | nil => rfl
  | cons x xs ih =>
    unfold updateFirst
    cases hqx : q x
    · cases hpx : p x
      · simp only [updateFirst, hqx, hpx, Bool.false_eq_true, if_false]
        rw [ih]
      · simp only [updateFirst, hqx, hpx, if_true, Bool.false_eq_true, if_false]
        rw [hfq x, hqx]
        simp
    · have hpx : p x = false := by
        cases hp : p x
        · rfl
        · exact absurd ⟨hp, hqx⟩ (hdisj x)
      simp only [updateFirst, hqx, hpx, if_true, Bool.false_eq_true, if_false]
      rw [hhp x, hpx]
      simp

theorem updateFirst_idem {p : α → Bool} {f : α → α}
    (hfp : ∀ x, p (f x) = p x) (hff : ∀ x, p x = true → f (f x) = f x) :
    ∀ s : List α, updateFirst p f (updateFirst p f s) = updateFirst p f s := by
  intro s
  induction s with
  | nil => rfl
  | cons x xs ih =>
    unfold updateFirst
    cases hx : p x
    · simp only [Bool.false_eq_true, if_false, updateFirst, hx]
      rw [ih]
    · simp only [if_true, updateFirst, hfp x, hx]
      rw [hff x hx]

theorem keyPred_pres (hkeyg : ∀ r x, key (g r x) = key x) (r r' : ρ) (x : α) :
    keyPred key rkey r (g r' x) = keyPred key rkey r x := by
  unfold keyPred
  rw [hkeyg]

theorem keyPred_mk (hkeymk : ∀ r, key (mk r) = rkey r) {r r' : ρ} (hne : rkey r ≠ rkey r') :
    keyPred key rkey r (mk r') = false := by
  unfold keyPred
  rw [hkeymk]
  exact decide_eq_false (fun h => hne h.symm)

theorem any_upsertRow_self (hkeyg : ∀ r x, key (g r x) = key x)
    (hkeymk : ∀ r, key (mk r) = rkey r) (r : ρ) (s : List α) :
    (upsertRow key rkey mk g r s).any (keyPred key rkey r) = true := by
  unfold upsertRow
  cases hs : s.any (keyPred key rkey r)
  · simp only [Bool.false_eq_true, if_false]
    rw [List.any_append]
    have : keyPred key rkey r (mk r) = true := by
      unfold keyPred
      simp [hkeymk]
    simp [this]
  · simp only [if_true]
    rw [any_updateFirst (fun x => keyPred_pres hkeyg r r x) s]
    exact hs

theorem any_upsertRow_mono (hkeyg : ∀ r x, key (g r x) = key x) (r r' : ρ) (s : List α)
    (h : s.any (keyPred key rkey r) = true) :
    (upsertRow key rkey mk g r' s).any (keyPred key rkey r) = true := by
  unfold upsertRow
  cases hs : s.any (keyPred key rkey r')
  · simp only [Bool.false_eq_true, if_false]
    rw [List.any_append, h]
    rfl
  · simp only [if_true]
    rw [any_updateFirst (fun x => keyPred_pres hkeyg r r' x) s]
    exact h

theorem any_upsertBatch_mono (hkeyg : ∀ r x, key (g r x) = key x) (r : ρ) :
    ∀ (rows : List ρ) (s : List α), s.any (keyPred key rkey r) = true →
      (upsertBatch key rkey mk g rows s).any (keyPred key rkey r) = true := by
  intro rows
  induction rows with
  | nil => intro s h; exact h
  | cons r' rest ih =>
    intro s h
    exact ih _ (any_upsertRow_mono hkeyg r r' s h)

theorem upsertRow_updateFirst_comm (hkeyg : ∀ r x, key (g r x) = key x)
    (hkeymk : ∀ r, key (mk r) = rkey r) {r r' : ρ} (hne : rkey r ≠ rkey r') (s : List α) :
    upsertRow key rkey mk g r' (updateFirst (keyPred key rkey r) (g r) s) =
      updateFirst (keyPred key rkey r) (g r) (upsertRow key rkey mk g r' s) := by
  have hany : (updateFirst (keyPred key rkey r) (g r) s).any (keyPred key rkey r') =
      s.any (keyPred key rkey r') :=
    any_updateFirst (fun x => keyPred_pres hkeyg r' r x) s
  unfold upsertRow
  cases hs : s.any (keyPred key rkey r')
  · rw [hs] at hany
    rw [hany]
    simp only [Bool.false_eq_true, if_false]
    rw [updateFirst_append_notlast (keyPred_mk hkeymk hne)]
  · rw [hs] at hany
    rw [hany]
    simp only [if_true]
    refine updateFirst_comm ?_ ?_ ?_ s
    · intro x ⟨h1, h2⟩
      unfold keyPred at h1 h2
      exact hne ((of_decide_eq_true h1).symm.trans (of_decide_eq_true h2)).symm
    · intro x; exact keyPred_pres hkeyg r r' x
    · intro x; exact keyPred_pres hkeyg r' r x

theorem upsertBatch_updateFirst_comm (hkeyg : ∀ r x, key (g r x) = key x)
    (hkeymk : ∀ r, key (mk r) = rkey r) {r : ρ} :
    ∀ (rest : List ρ), (∀ r' ∈ rest, rkey r ≠ rkey r') → ∀ (s : List α),
      updateFirst (keyPred key rkey r) (g r) (upsertBatch key rkey mk g rest s) =
        upsertBatch key rkey mk g rest (updateFirst (keyPred key rkey r) (g r) s) := by
  intro rest
  induction rest with
  | nil => intro _ s; rfl
  | cons r' rest' ih =>
    intro hne s
    have h1 : upsertBatch key rkey mk g (r' :: rest') s =
        upsertBatch key rkey mk g rest' (upsertRow key rkey mk g r' s) := rfl
    rw [h1, ih (fun x hx => hne x (List.mem_cons_of_mem _ hx)),
        ← upsertRow_updateFirst_comm hkeyg hkeymk (hne r' (List.mem_cons_self _ _))]
    rfl

theorem upsertRow_idem (hkeyg : ∀ r x, key (g r x) = key x)
    (hkeymk : ∀ r, key (mk r) = rkey r) (hgg : ∀ r x, g r (g r x) = g r x)
    (hgmk : ∀ r, g r (mk r) = mk r) (r : ρ) (s : List α) :
    upsertRow key rkey mk g r (upsertRow key rkey mk g r s) = upsertRow key rkey mk g r s := by
  cases hs : s.any (keyPred key rkey r)
  · have h1 : upsertRow key rkey mk g r s = s ++ [mk r] := by
      unfold upsertRow
      rw [hs]
      simp
    rw [h1]
    unfold upsertRow
    have h2 : (s ++ [mk r]).any (keyPred key rkey r) = true := by
      rw [List.any_append]
      have : keyPred key rkey r (mk r) = true := by
        unfold keyPred
        simp [hkeymk]
      simp [this]
    rw [h2]
    simp only [if_true]
    rw [updateFirst_append_of_not_any hs]
    have h3 : updateFirst (keyPred key rkey r) (g r) [mk r] = [mk r] := by
      unfold updateFirst
      have : keyPred key rkey r (mk r) = true := by
        unfold keyPred
        simp [hkeymk]
      rw [this]
      simp [hgmk]
    rw [h3]
  · have h1 : upsertRow key rkey mk g r s = updateFirst (keyPred key rkey r) (g r) s := by
      unfold upsertRow
      rw [hs]
      simp
    rw [h1]
    unfold upsertRow
    have h2 : (updateFirst (keyPred key rkey r) (g r) s).any (keyPred key rkey r) = true := by
      rw [any_updateFirst (fun x => keyPred_pres hkeyg r r x) s]
      exact hs
    rw [h2]
    simp only [if_true]
    refine updateFirst_idem ?_ ?_ s
    · intro x; exact keyPred_pres hkeyg r r x
    · intro x _; exact hgg r x

theorem upsertBatch_idem (hkeyg : ∀ r x, key (g r x) = key x)
    (hkeymk : ∀ r, key (mk r) = rkey r) (hgg : ∀ r x, g r (g r x) = g r x)
    (hgmk : ∀ r, g r (mk r) = mk r) :
    ∀ (rows : List ρ), rows.Pairwise (fun a b => rkey a ≠ rkey b) → ∀ (s : List α),
      upsertBatch key rkey mk g rows (upsertBatch key rkey mk g rows s) =
        upsertBatch key rkey mk g rows s := by
  intro rows
  induction rows with
  | nil => intro _ s; rfl
  | cons r rest ih =>
    intro hnd s
    obtain ⟨hr, hrest⟩ := List.pairwise_cons.mp hnd
    have hstep : ∀ t : List α, upsertBatch key rkey mk g (r :: rest) t =
        upsertBatch key rkey mk g rest (upsertRow key rkey mk g r t) := fun _ => rfl
    rw [hstep, hstep]
    set t := upsertRow key rkey mk g r s with ht
    have hpres : t.any (keyPred key rkey r) = true :=
      @any_upsertRow_self _ _ _ _ key rkey mk g hkeyg hkeymk r s
    have hpres2 : (upsertBatch key rkey mk g rest t).any (keyPred key rkey r) = true :=
      any_upsertBatch_mono hkeyg r rest t hpres
    have h3 : upsertRow key rkey mk g r (upsertBatch key rkey mk g rest t) =
        updateFirst (keyPred key rkey r) (g r) (upsertBatch key rkey mk g rest t) := by
      unfold upsertRow
      rw [hpres2]
      simp
    have h4 : updateFirst (keyPred key rkey r) (g r) t = t := by
      have h5 : upsertRow key rkey mk g r t = updateFirst (keyPred key rkey r) (g r) t := by
        unfold upsertRow
        rw [hpres]
        simp
      rw [← h5, ht]
      exact upsertRow_idem hkeyg hkeymk hgg hgmk r s
    rw [h3, upsertBatch_updateFirst_comm hkeyg hkeymk rest hr t, h4]
    exact ih hrest t

end UpsertLemmas

/-! Idempotence of a repeated refresh (C4) -/

theorem saveGameScores_idem (rows : List GameScoreRow)
    (hnd : rows.Pairwise (fun a b => gsRowKey a ≠ gsRowKey b)) (s : List TeamGameScore) :
    saveGameScores rows (saveGameScores rows s) = saveGameScores rows s :=
  @upsertBatch_idem TeamGameScore GameScoreRow (Int × Nat × String) _ gsKey gsRowKey
    mkTeamGameScore overwriteTeamGameScore (fun _ _ => rfl) (fun _ => rfl) (fun _ _ => rfl)
    (fun _ => rfl) rows hnd s

theorem saveStandings_idem (rows : List StandingRow)
    (hnd : rows.Pairwise (fun a b => stRowKey a ≠ stRowKey b)) (s : List TeamStanding) :
    saveStandings rows (saveStandings rows s) = saveStandings rows s :=
  @upsertBatch_idem TeamStanding StandingRow (Int × String) _ stKey stRowKey
    mkTeamStanding overwriteTeamStanding (fun _ _ => rfl) (fun _ => rfl) (fun _ _ => rfl)
    (fun _ => rfl) rows hnd s

/-- C4: re-running `scrape_season` on the same fetched data starting from
the state left by the first run changes nothing: every upsert of the second
run matches an existing row by its natural key and overwrites it with
identical values, so the stored GameOutcome and SeasonStanding rows (and
the returned `records_updated`) are exactly those of the first run.
Timestamps, which the claim ignores, are not part of the embedded rows.
The hypothesis — the derived rows have pairwise distinct natural keys
`(season, gameday, team)` — holds for real schedules, where a team plays at
most one game per calendar day. -/
theorem refresh_idempotent (scores : List RawGame) (db : DBState)
    (hnd : (create_game_scores_dataframe scores).Pairwise
      (fun a b => gsRowKey a ≠ gsRowKey b)) :
    scrape_season scores (scrape_season scores db).1 = scrape_season scores db := by
  by_cases he : (create_game_scores_dataframe scores).isEmpty = true
  · have h1 : scrape_season scores db = (db, 0) := by
      unfold scrape_season
      rw [if_pos he]
    rw [h1]
    exact h1
  · have hrun : ∀ d : DBState, scrape_season scores d =
        ({ d with
            game_scores := saveGameScores (create_game_scores_dataframe scores) d.game_scores,
            standings := saveStandings
              (calculate_standings_from_scores (create_game_scores_dataframe scores))
              d.standings },
         (calculate_standings_from_scores (create_game_scores_dataframe scores)).length) := by
      intro d
      unfold scrape_season
      rw [if_neg he]
    rw [hrun db, hrun]
    dsimp only
    rw [saveGameScores_idem _ hnd db.game_scores,
        saveStandings_idem _ (calculate_standings_keys_nodup _) db.standings]

/-- A concrete completed regular-season game between two teams of the same
custom division (CIN and CAR are both in division "Cats"). -/
def cinCarGame : RawGame :=
  { season := 2023, gameday := 1, gametime := none,
    home_team := "CIN", away_team := "CAR",
    home_score := some 20, away_score := some 10, game_type := "REG" }

/-- A freshly initialised database with no rows. -/
def emptyDB : DBState := { game_scores := [], standings := [], scrape_logs := [] }

/-- Witness for C4 at a concrete input: a one-game season refreshed twice
from the empty database. -/
theorem refresh_idempotent_witness :
    (create_game_scores_dataframe [cinCarGame]).Pairwise
      (fun a b => gsRowKey a ≠ gsRowKey b) ∧
    scrape_season [cinCarGame] (scrape_season [cinCarGame] emptyDB).1 =
      scrape_season [cinCarGame] emptyDB :=
  ⟨by decide, refresh_idempotent [cinCarGame] emptyDB (by decide)⟩

/-! Lemmas about the Standings Reader sort (C9) -/

theorem lexLt_asymm {a b : ℚ × ℚ} (h : lexLt a b) : ¬ lexLt b a := by
  intro h'
  rcases h with h | ⟨h1, h2⟩ <;> rcases h' with h' | ⟨h1', h2'⟩ <;> linarith

theorem lexLt_irrefl (a : ℚ × ℚ) : ¬ lexLt a a := fun h => lexLt_asymm h h

theorem lexLt_not_trans {a b c : ℚ × ℚ} (hab : ¬ lexLt a b) (hbc : ¬ lexLt b c) :
    ¬ lexLt a c := by
  unfold lexLt at hab hbc ⊢
  push_neg at hab hbc
  obtain ⟨hab1, hab2⟩ := hab
  obtain ⟨hbc1, hbc2⟩ := hbc
  rintro (h | ⟨h1, h2⟩)
  · linarith
  · have h1ab : a.1 = b.1 := le_antisymm (by linarith) hab1
    have h1bc : b.1 = c.1 := le_antisymm (by linarith) hbc1
    have ha2 := hab2 h1ab
    have hb2 := hbc2 h1bc
    linarith

theorem perm_insertEntryDesc (x : StandingEntry) :
    ∀ l : List StandingEntry, (insertEntryDesc x l).Perm (x :: l) := by
  intro l
  induction l with
  | nil => exact List.Perm.refl _
  | cons y l ih =>
    unfold insertEntryDesc
    by_cases hxy : lexLt (sortKey x) (sortKey y)
    · rw [if_pos hxy]
      exact (ih.cons y).trans (List.Perm.swap x y l)
    · rw [if_neg hxy]

theorem perm_sortEntriesDesc :
    ∀ l : List StandingEntry, (sortEntriesDesc l).Perm l := by
  intro l
  induction l with
  | nil => exact List.Perm.refl _
  | cons x l ih =>
    unfold sortEntriesDesc
    exact (perm_insertEntryDesc x (sortEntriesDesc l)).trans (ih.cons x)

theorem sorted_insertEntryDesc (x : StandingEntry) :
    ∀ {l : List StandingEntry},
      l.Pairwise (fun a b => ¬ lexLt (sortKey a) (sortKey b)) →
      (insertEntryDesc x l).Pairwise (fun a b => ¬ lexLt (sortKey a) (sortKey b)) := by
  intro l
  induction l with
  | nil =>
    intro _
    exact List.pairwise_singleton _ _
  | cons y l ih =>
    intro hp
    obtain ⟨hy, hl⟩ := List.pairwise_cons.mp hp
    unfold insertEntryDesc
    by_cases hxy : lexLt (sortKey x) (sortKey y)
    · rw [if_pos hxy]
      refine List.pairwise_cons.mpr ⟨?_, ih hl⟩
      intro z hz
      have hz' := (perm_insertEntryDesc x l).mem_iff.mp hz
      rcases List.mem_cons.mp hz' with rfl | hz2
      · exact lexLt_asymm hxy
      · exact hy z hz2
    · rw [if_neg hxy]
      refine List.pairwise_cons.mpr ⟨?_, hp⟩
      intro z hz
      rcases List.mem_cons.mp hz with rfl | hz2
      · exact hxy
      · exact lexLt_not_trans hxy (hy z hz2)

theorem sorted_sortEntriesDesc :
    ∀ l : List StandingEntry,
      (sortEntriesDesc l).Pairwise (fun a b => ¬ lexLt (sortKey a) (sortKey b)) := by
  intro l
  induction l with
  | nil => exact List.Pairwise.nil
  | cons x l ih =>
    unfold sortEntriesDesc
    exact sorted_insertEntryDesc x ih

theorem filter_insertEntryDesc (k : ℚ × ℚ) (x : StandingEntry) :
    ∀ l : List StandingEntry,
      (insertEntryDesc x l).filter (fun e => decide (sortKey e = k)) =
        if sortKey x = k then x :: l.filter (fun e => decide (sortKey e = k))
        else l.filter (fun e => decide (sortKey e = k)) := by
  intro l
  induction l with
  | nil =>
    unfold insertEntryDesc
    by_cases hx : sortKey x = k <;> simp [hx]
  | cons y l ih =>
    unfold insertEntryDesc
    by_cases hxy : lexLt (sortKey x) (sortKey y)
    · rw [if_pos hxy]
      by_cases hy : sortKey y = k
      · have hxk : ¬ sortKey x = k := by
          intro hxk
          exact lexLt_irrefl _ (hxk ▸ hy ▸ hxy)
        rw [List.filter_cons, List.filter_cons]
        simp [hy, hxk, ih]
      · rw [List.filter_cons, List.filter_cons]
        simp [hy, ih]
    · rw [if_neg hxy]
      by_cases hx : sortKey x = k
      · rw [if_pos hx, List.filter_cons]
        simp [hx]
      · rw [if_neg hx, List.filter_cons]
        simp [hx]

theorem filter_sortEntriesDesc (k : ℚ × ℚ) :
    ∀ l : List StandingEntry,
      (sortEntriesDesc l).filter (fun e => decide (sortKey e = k)) =
        l.filter (fun e => decide (sortKey e = k)) := by
  intro l
  induction l with
  | nil => rfl
  | cons x l ih =>
    unfold sortEntriesDesc
    rw [filter_insertEntryDesc]
    by_cases hx : sortKey x = k
    · rw [if_pos hx, ih, List.filter_cons, if_pos (by simp [hx])]
    · rw [if_neg hx, ih, List.filter_cons, if_neg (by simp [hx])]

/-- Spec ordering example, team A: overall .700, in-division .600. -/
def exampleEntryA : StandingEntry :=
  { team := "AAA", name := "Alpha", wins := 7, losses := 3, ties := 0, win_pct := 7/10,
    in_division_wins := 3, in_division_losses := 2, in_division_ties := 0,
    in_division_win_pct := 3/5, season := 2023 }

/-- Spec ordering example, team B: overall .700, in-division .800. -/
def exampleEntryB : StandingEntry :=
  { team := "BBB", name := "Beta", wins := 7, losses := 3, ties := 0, win_pct := 7/10,
    in_division_wins := 4, in_division_losses := 1, in_division_ties := 0,
    in_division_win_pct := 4/5, season := 2023 }

/-- C9: every division list returned by `get_standings` is the grouped
entries of that division sorted descending by the composite key
`(win_pct, in_division_win_pct)` — a permutation of the grouped entries,
pairwise non-ascending in the lexicographic order, and stable: entries with
equal composite keys keep their stored relative order (so repeated calls on
identical stored data return the same order, `get_standings_division` being
a function).  In particular, with equal `win_pct` .700 and in-division
percentages .600 vs .800, team B sorts before team A. -/
theorem division_sort_order (realignments : List TeamRealignment)
    (standings : List TeamStanding) (conference division : String) :
    (get_standings_division realignments standings conference division).Pairwise
      (fun a b => ¬ lexLt (sortKey a) (sortKey b)) ∧
    (get_standings_division realignments standings conference division).Perm
      (groupedEntries realignments standings conference division) ∧
    (∀ k : ℚ × ℚ,
      (get_standings_division realignments standings conference division).filter
        (fun e => decide (sortKey e = k)) =
      (groupedEntries realignments standings conference division).filter
        (fun e => decide (sortKey e = k))) ∧
    sortEntriesDesc [exampleEntryA, exampleEntryB] = [exampleEntryB, exampleEntryA] := by
  refine ⟨sorted_sortEntriesDesc _, perm_sortEntriesDesc _,
          fun k => filter_sortEntriesDesc k _, ?_⟩
  have hAB : lexLt (sortKey exampleEntryA) (sortKey exampleEntryB) := by
    refine Or.inr ⟨rfl, ?_⟩
    norm_num [sortKey, exampleEntryA, exampleEntryB]
  simp only [sortEntriesDesc, insertEntryDesc]
  rw [if_pos hAB]

/-! Concrete demo rows for witnesses -/

/-- The home-perspective derived row of the CIN/CAR demo game. -/
def cinRowHome : GameScoreRow :=
  { season := 2023, gameday := 1, gametime := none, team := "CIN", opponent := "CAR",
    score := 20, opponent_score := 10, is_win := 1, is_loss := 0, is_tie := 0 }

/-- The away-perspective derived row of the CIN/CAR demo game. -/
def carRowAway : GameScoreRow :=
  { season := 2023, gameday := 1, gametime := none, team := "CAR", opponent := "CIN",
    score := 10, opponent_score := 20, is_win := 0, is_loss := 1, is_tie := 0 }

/-- The aggregate row of team CIN in the one-game demo season. -/
def aggCIN : StandingRow :=
  aggRow (create_game_scores_dataframe [cinCarGame]) (2023, "CIN")

/-- Witness for C6: the demo game yields the two perspective rows, the
output length is twice the retained count, and an input with no retained
games yields the empty output. -/
theorem outcome_deriver_witness :
    homeRow cinCarGame = some cinRowHome ∧ awayRow cinCarGame = some carRowAway ∧
    (create_game_scores_dataframe [cinCarGame]).length =
      2 * ([cinCarGame].filter retainedGame).length ∧
    create_game_scores_dataframe [] = [] :=
  ⟨by decide, by decide, (outcome_deriver_two_rows_per_retained_game [cinCarGame]).2.1,
   (outcome_deriver_two_rows_per_retained_game []).1 (by decide)⟩

/-- Witness for C7 at the demo rows. -/
theorem flags_exclusive_and_mirror_witness :
    ((cinRowHome.is_win = 1 ↔ cinRowHome.opponent_score < cinRowHome.score) ∧
     (cinRowHome.is_loss = 1 ↔ cinRowHome.score < cinRowHome.opponent_score) ∧
     (cinRowHome.is_tie = 1 ↔ cinRowHome.score = cinRowHome.opponent_score) ∧
     cinRowHome.is_win + cinRowHome.is_loss + cinRowHome.is_tie = 1) ∧
    (cinRowHome.is_win = carRowAway.is_loss ∧ cinRowHome.is_loss = carRowAway.is_win ∧
     cinRowHome.is_tie = carRowAway.is_tie) :=
  ⟨(flags_exclusive_and_mirror [cinCarGame]).1 cinRowHome (by decide),
   (flags_exclusive_and_mirror [cinCarGame]).2 cinCarGame cinRowHome carRowAway
     (by decide) (by decide)⟩

/-- Witness for C8 at the demo aggregate. -/
theorem win_pct_formula_witness :
    (aggCIN.is_win + aggCIN.is_loss + aggCIN.is_tie = 0 → aggCIN.pct = 0) ∧
    (aggCIN.is_win + aggCIN.is_loss + aggCIN.is_tie ≠ 0 →
      aggCIN.pct = ((aggCIN.is_win : ℚ) + (aggCIN.is_tie : ℚ) / 2) /
        ((aggCIN.is_win : ℚ) + (aggCIN.is_loss : ℚ) + (aggCIN.is_tie : ℚ))) :=
  win_pct_formula (create_game_scores_dataframe [cinCarGame]) aggCIN
    (List.mem_map.mpr ⟨(2023, "CIN"), by decide, rfl⟩)

/-- Witness for C10 at the demo aggregate. -/
theorem denominator_positive_witness :
    1 ≤ aggCIN.is_win + aggCIN.is_loss + aggCIN.is_tie ∧
    aggCIN.pct = ((aggCIN.is_win : ℚ) + (aggCIN.is_tie : ℚ) / 2) /
      ((aggCIN.is_win : ℚ) + (aggCIN.is_loss : ℚ) + (aggCIN.is_tie : ℚ)) :=
  denominator_positive [cinCarGame] aggCIN
    (List.mem_map.mpr ⟨(2023, "CIN"), by decide, rfl⟩)

/-! C1: in-division totals are never computed -/

/-- C1: evaluation of the refresh pipeline at a completed same-division
game.  CIN and CAR are both in division "Cats" of the Realignment Registry
and CIN won the demo game, yet after the refresh both stored standings have
`in_division_wins = in_division_losses = in_division_ties = 0`: neither the
aggregator nor the reconciler ever reads the registry or writes the
`in_division_*` columns, which keep their SQL defaults. -/
theorem in_division_never_populated :
    divisionOf "CIN" = some "Cats" ∧ divisionOf "CAR" = some "Cats" ∧
    retainedGame cinCarGame = true ∧
    (scrape_season [cinCarGame] emptyDB).1.standings.map
      (fun s => (s.team, s.wins, s.in_division_wins, s.in_division_losses, s.in_division_ties)) =
      [("CIN", 1, 0, 0, 0), ("CAR", 0, 0, 0, 0)] := by
  refine ⟨by decide, by decide, by decide, by decide⟩

/-! C2: audit logging of the refresh entry points -/

/-- C2 counterexample: the single-season entry point commits successfully
(two standings rows updated) and appends no ScrapeLog row at all. -/
theorem scrape_season_appends_no_audit_row :
    (scrape_season [cinCarGame] emptyDB).2 = 2 ∧
    (scrape_season [cinCarGame] emptyDB).1.scrape_logs = [] := by
  refine ⟨by decide, by decide⟩

theorem mem_insertAscInt {a x : Int} :
    ∀ l : List Int, a ∈ insertAscInt x l ↔ a = x ∨ a ∈ l := by
  intro l
  induction l with
  | nil => simp [insertAscInt]
  | cons y l ih =>
    unfold insertAscInt
    by_cases hxy : x ≤ y
    · rw [if_pos hxy]
      simp
    · rw [if_neg hxy]
      simp only [List.mem_cons, ih]
      tauto

theorem mem_sortAsc {a : Int} : ∀ l : List Int, a ∈ l.foldr insertAscInt [] ↔ a ∈ l := by
  intro l
  induction l with
  | nil => simp
  | cons x l ih => simp only [List.foldr_cons, mem_insertAscInt, ih, List.mem_cons]

theorem mem_sortedUniqueSeasons {gs : List GameScoreRow} {y : Int} :
    y ∈ sortedUniqueSeasons gs ↔ ∃ row ∈ gs, row.season = y := by
  unfold sortedUniqueSeasons
  rw [mem_sortAsc, mem_dedupKeys, List.mem_map]

/-- The season list recorded by the all-seasons refresh holds exactly the
seasons of the retained games. -/
theorem seasons_recorded_iff {scores : List RawGame} {y : Int} :
    y ∈ sortedUniqueSeasons (create_game_scores_dataframe scores) ↔
      ∃ g ∈ scores, retainedGame g = true ∧ g.season = y := by
  rw [mem_sortedUniqueSeasons]
  constructor
  · rintro ⟨row, hrow, hy⟩
    rcases mem_create_iff.mp hrow with ⟨g, hg, hgr⟩ | ⟨g, hg, hgr⟩
    · have hret := homeRow_isSome g
      rw [hgr] at hret
      simp at hret
      obtain ⟨hs, aws, _, _, _, hrow2⟩ := homeRow_some_elim hgr
      refine ⟨g, hg, hret, ?_⟩
      rw [hrow2] at hy
      exact hy
    · have hret := awayRow_isSome g
      rw [hgr] at hret
      simp at hret
      obtain ⟨hs, aws, _, _, _, hrow2⟩ := awayRow_some_elim hgr
      refine ⟨g, hg, hret, ?_⟩
      rw [hrow2] at hy
      exact hy
  · rintro ⟨g, hg, hret, hy⟩
    have hh := homeRow_isSome g
    rw [hret] at hh
    obtain ⟨row, hrow⟩ := Option.isSome_iff_exists.mp hh
    obtain ⟨hs, aws, _, _, _, hrow2⟩ := homeRow_some_elim hrow
    refine ⟨row, mem_create_iff.mpr (Or.inl ⟨g, hg, hrow⟩), ?_⟩
    rw [hrow2]
    exact hy

/-- C2 (amended): only the current-season and all-seasons entry points
append an audit entry after a successful commit.  The all-seasons entry
records the ascending distinct seasons of the retained games (exactly the
seasons touched) and the number of standings rows written; the
current-season entry records the current calendar year — not necessarily
the season of the fetched data — and the number of standings rows written;
the bare single-season entry point `scrape_season` appends no audit entry
at all. -/
theorem audit_logging_amended :
    (∀ scores db, (scrape_season scores db).1.scrape_logs = db.scrape_logs) ∧
    (∀ scores db, (create_game_scores_dataframe scores).isEmpty = false →
      (scrape_all_seasons (Except.ok scores) db).1.scrape_logs = db.scrape_logs ++
        [{ seasons_scraped := seasonsJoined (create_game_scores_dataframe scores),
           success := true, error_message := none,
           records_updated :=
             (calculate_standings_from_scores (create_game_scores_dataframe scores)).length }] ∧
      (scrape_all_seasons (Except.ok scores) db).2.records_updated =
        (calculate_standings_from_scores (create_game_scores_dataframe scores)).length) ∧
    (∀ scores db y, (scrape_current_season (Except.ok scores) y db).1.scrape_logs =
        (scrape_season scores db).1.scrape_logs ++
        [{ seasons_scraped := toString y, success := true, error_message := none,
           records_updated := (scrape_season scores db).2 }]) ∧
    (∀ scores y, y ∈ sortedUniqueSeasons (create_game_scores_dataframe scores) ↔
      ∃ g ∈ scores, retainedGame g = true ∧ g.season = y) := by
  refine ⟨?_, ?_, ?_, fun scores y => seasons_recorded_iff⟩
  · intro scores db
    unfold scrape_season
    by_cases he : (create_game_scores_dataframe scores).isEmpty = true
    · rw [if_pos he]
    · rw [if_neg he]
  · intro scores db he
    have hne : ¬ (create_game_scores_dataframe scores).isEmpty = true := by
      rw [he]
      exact Bool.false_ne_true
    simp only [scrape_all_seasons]
    rw [if_neg hne]
    exact ⟨rfl, rfl⟩
  · intro scores db y
    rfl

/-- Witness for C2's amended claim at concrete inputs. -/
theorem audit_logging_amended_witness :
    (scrape_season [cinCarGame] emptyDB).1.scrape_logs = emptyDB.scrape_logs ∧
    (scrape_all_seasons (Except.ok [cinCarGame]) emptyDB).1.scrape_logs =
      emptyDB.scrape_logs ++
      [{ seasons_scraped := seasonsJoined (create_game_scores_dataframe [cinCarGame]),
         success := true, error_message := none,
         records_updated :=
           (calculate_standings_from_scores (create_game_scores_dataframe [cinCarGame])).length }] ∧
    (scrape_all_seasons (Except.ok [cinCarGame]) emptyDB).2.records_updated =
      (calculate_standings_from_scores (create_game_scores_dataframe [cinCarGame])).length :=
  ⟨audit_logging_amended.1 [cinCarGame] emptyDB,
   audit_logging_amended.2.1 [cinCarGame] emptyDB (by decide)⟩

/-! C3: refresh with zero retained games -/

/-- C3 counterexample: the all-seasons refresh on an input with zero
retained games returns a failure dictionary, not success. -/
theorem all_seasons_empty_returns_failure :
    (scrape_all_seasons (Except.ok []) emptyDB).2 =
      { success := false, records_updated := 0, error := some "No game scores data found" } := by
  decide

/-- C3 (amended): on zero retained games the single-season refresh returns
0 with the stores untouched and the current-season refresh returns success
with `records_updated = 0` (appending a success audit row), but the
all-seasons refresh instead returns a failure dictionary with error
"No game scores data found" and `records_updated = 0`, appending no audit
row and leaving the stores untouched. -/
theorem empty_refresh_behavior :
    (∀ scores db, (create_game_scores_dataframe scores).isEmpty = true →
      scrape_season scores db = (db, 0)) ∧
    (∀ scores db (y : Int), (create_game_scores_dataframe scores).isEmpty = true →
      scrape_current_season (Except.ok scores) y db =
        ({ db with scrape_logs := db.scrape_logs ++
            [{ seasons_scraped := toString y, success := true, error_message := none,
               records_updated := 0 }] },
         { success := true, records_updated := 0, error := none })) ∧
    (∀ scores db, (create_game_scores_dataframe scores).isEmpty = true →
      scrape_all_seasons (Except.ok scores) db =
        (db, { success := false, records_updated := 0,
               error := some "No game scores data found" })) := by
  have hss : ∀ scores db, (create_game_scores_dataframe scores).isEmpty = true →
      scrape_season scores db = (db, 0) := by
    intro scores db he
    unfold scrape_season
    rw [if_pos he]
  refine ⟨hss, ?_, ?_⟩
  · intro scores db y he
    simp only [scrape_current_season]
    rw [hss scores db he]
  · intro scores db he
    simp only [scrape_all_seasons]
    rw [if_pos he]

/-- Witness for C3's amended claim at concrete inputs. -/
theorem empty_refresh_behavior_witness :
    scrape_season [] emptyDB = (emptyDB, 0) ∧
    scrape_current_season (Except.ok []) 2025 emptyDB =
      ({ emptyDB with scrape_logs := emptyDB.scrape_logs ++
          [{ seasons_scraped := toString (2025 : Int), success := true, error_message := none,
             records_updated := 0 }] },
       { success := true, records_updated := 0, error := none }) ∧
    scrape_all_seasons (Except.ok []) emptyDB =
      (emptyDB, { success := false, records_updated := 0,
                  error := some "No game scores data found" }) :=
  ⟨empty_refresh_behavior.1 [] emptyDB (by decide),
   empty_refresh_behavior.2.1 [] emptyDB 2025 (by decide),
   empty_refresh_behavior.2.2 [] emptyDB (by decide)⟩

/-! C5: refresh when the fetch collaborator raises -/

/-- C5 counterexample: a fetch error carrying an empty message is logged
with an empty — not non-empty — error message. -/
theorem fetch_error_empty_message_logged :
    (scrape_current_season (Except.error "") 2025 emptyDB).1.scrape_logs =
      [{ seasons_scraped := "", success := false, error_message := some "",
         records_updated := 0 }] ∧
    (scrape_current_season (Except.error "") 2025 emptyDB).2.success = false := by
  refine ⟨by decide, by decide⟩

/-- C5 (amended): when the fetch collaborator raises, both wrapper entry
points return `success = false` with `records_updated = 0`, append exactly
one failed ScrapeLog row carrying the raised message truncated to at most
1000 characters (non-empty whenever the raised message is non-empty), and
leave every stored SeasonStanding and GameOutcome row unchanged. -/
theorem fetch_error_behavior (e : String) (db : DBState) (y : Int) :
    ((scrape_current_season (Except.error e) y db).2 =
      { success := false, records_updated := 0, error := some e }) ∧
    ((scrape_current_season (Except.error e) y db).1.game_scores = db.game_scores) ∧
    ((scrape_current_season (Except.error e) y db).1.standings = db.standings) ∧
    ((scrape_current_season (Except.error e) y db).1.scrape_logs = db.scrape_logs ++
      [{ seasons_scraped := "", success := false, error_message := some (truncateError e),
         records_updated := 0 }]) ∧
    ((scrape_all_seasons (Except.error e) db).2 =
      { success := false, records_updated := 0, error := some e }) ∧
    ((scrape_all_seasons (Except.error e) db).1.game_scores = db.game_scores) ∧
    ((scrape_all_seasons (Except.error e) db).1.standings = db.standings) ∧
    ((scrape_all_seasons (Except.error e) db).1.scrape_logs = db.scrape_logs ++
      [{ seasons_scraped := "", success := false, error_message := some (truncateError e),
         records_updated := 0 }]) ∧
    (truncateError e).length ≤ 1000 ∧
    (e ≠ "" → truncateError e ≠ "") := by
  refine ⟨rfl, rfl, rfl, rfl, rfl, rfl, rfl, rfl, ?_, ?_⟩
  · have h1 : (truncateError e).length = (e.data.take 1000).length := rfl
    rw [h1, List.length_take]
    exact min_le_left _ _
  · intro he hcon
    apply he
    have h1 : e.data.take 1000 = [] := congrArg String.data hcon
    rcases List.take_eq_nil_iff.mp h1 with h | h
    · exact absurd h (by norm_num)
    · cases e with
      | mk data =>
        simp only [String.data] at h
        rw [h]

/-- Witness for C5's amended claim at a concrete error. -/
theorem fetch_error_behavior_witness :
    (scrape_current_season (Except.error "boom") 2025 emptyDB).2 =
      { success := false, records_updated := 0, error := some "boom" } ∧
    truncateError "boom" ≠ "" :=
  ⟨(fetch_error_behavior "boom" emptyDB 2025).1,
   (fetch_error_behavior "boom" emptyDB 2025).2.2.2.2.2.2.2.2.2 (by decide)⟩

end Realignment
